import Mathlib

/-!
Shallow embedding of kaptan's configuration engine
(`src/kaptan/__init__.py`), together with theorems settling the frozen
claims about its dotted-path get/add/remove/upsert operations and the
handler dispatch of `import_config`.

Python values that the format handlers can put in `configuration_data`
are modelled by `ConfigTree`: dicts (insertion-ordered association lists
with string keys), lists, strings, integers, booleans and `None`.
Python exceptions are modelled by the `PyErr` kind they carry, and every
operation returns `Except PyErr _`.
-/

/-- Python value tree: dict, list, str, int, bool, None.  Dicts are
insertion-ordered association lists with string keys, as produced by
kaptan's format handlers. -/
inductive ConfigTree where
  | map : List (String × ConfigTree) → ConfigTree
  | seq : List ConfigTree → ConfigTree
  | str : String → ConfigTree
  | int : Int → ConfigTree
  | bool : Bool → ConfigTree
  | null : ConfigTree

/-- Kinds of Python exceptions the engine can raise. -/
inductive PyErr where
  | keyError
  | valueError
  | indexError
  | typeError
  | runtimeError
  | ioError
  | attributeError
deriving DecidableEq, Repr

/-- First-match lookup in a Python dict modelled as an association list
(`d[k]` read access; `none` models `KeyError`). -/
def assocLookup : List (String × ConfigTree) → String → Option ConfigTree
  | [], _ => none
  | (k, v) :: rest, key => if k = key then some v else assocLookup rest key

/-- Python dict assignment `d[k] = v`: replaces the value at an existing
key in place, otherwise appends the new entry at the end (insertion
order semantics). -/
def assocSet : List (String × ConfigTree) → String → ConfigTree → List (String × ConfigTree)
  | [], key, value => [(key, value)]
  | (k, v) :: rest, key, value =>
      if k = key then (k, value) :: rest else (k, v) :: assocSet rest key value

/-- Python dict deletion `del d[k]` for a key known to be present:
drops the first entry with that key. -/
def assocDel : List (String × ConfigTree) → String → List (String × ConfigTree)
  | [], _ => []
  | (k, v) :: rest, key => if k = key then rest else (k, v) :: assocDel rest key

/-- Whether a node is a Python dict (`isinstance(x, Mapping)`). -/
def ConfigTree.isMap : ConfigTree → Bool
  | .map _ => true
  | _ => false

/-- Whether a node is a Python list (`isinstance(x, list)`, the check
used by `add` and `remove`; note this does NOT include strings). -/
def ConfigTree.isSeqB : ConfigTree → Bool
  | .seq _ => true
  | _ => false

/-- Whether a node is neither a `collections` `Mapping` nor a
`collections` `Sequence`: ints, bools and `None`.  Python strings ARE
`Sequence`s, so `ConfigTree.str` is excluded here. -/
def ConfigTree.isPyScalar : ConfigTree → Bool
  | .int _ => true
  | .bool _ => true
  | .null => true
  | _ => false

/-- Python `s.split(sep)` for a one-character separator, on character
lists: always returns at least one (possibly empty) piece;
`"".split('.') == ['']`, `"a.b".split('.') == ['a', 'b']`,
`"a.".split('.') == ['a', '']`. -/
def splitSep (sep : Char) : List Char → List (List Char)
  | [] => [[]]
  | c :: rest =>
      let r := splitSep sep rest
      if c = sep then [] :: r
      else
        match r with
        | [] => [[c]]
        | g :: gs => (c :: g) :: gs

/-- Python `key.split('.')` for a Lean `String`. -/
def pySplitDot (s : String) : List String :=
  (splitSep '.' s.toList).map (fun g => String.mk g)

/-- Python `int(s)` restricted to the plain decimal forms an optional
sign followed by digits; every other string raises `ValueError`
(modelled as `none`). -/
def pyToInt (s : String) : Option Int :=
  let core : List Char → Option Nat := fun ds =>
    if ds = [] then none
    else if ds.all (fun c => c.isDigit) then
      some (ds.foldl (fun acc c => acc * 10 + (c.toNat - 48)) 0)
    else none
  match s.toList with
  | '-' :: rest => (core rest).map (fun n => -(n : Int))
  | '+' :: rest => (core rest).map (fun n => (n : Int))
  | rest => (core rest).map (fun n => (n : Int))

/-- Python sequence index normalisation: a negative index counts from
the end; `none` models `IndexError`. -/
def pyNormIdx (i : Int) (len : Nat) : Option Nat :=
  let j := if i < 0 then i + len else i
  if 0 ≤ j ∧ j < len then some j.toNat else none

/-- Segment-wise traversal loop of `Kaptan._get`: one `chunk` consumed
per step.  Mappings are indexed by the chunk string (`KeyError` when
absent); `collections` `Sequence`s — lists AND strings — require the
chunk to parse as an int (`ValueError` otherwise, `IndexError` when out
of range); any other node is returned as-is, ending the traversal
early. -/
def getChunks : ConfigTree → List String → Except PyErr ConfigTree
  | t, [] => .ok t
  | .map m, c :: rest =>
      match assocLookup m c with
      | some v => getChunks v rest
      | none => .error .keyError
  | .seq xs, c :: rest =>
      match pyToInt c with
      | none => .error .valueError
      | some i =>
          match pyNormIdx i xs.length with
          | none => .error .indexError
          | some j =>
              if h : j < xs.length then getChunks (xs.get ⟨j, h⟩) rest
              else .error .indexError
  | .str s, c :: rest =>
      match pyToInt c with
      | none => .error .valueError
      | some i =>
          match pyNormIdx i s.toList.length with
          | none => .error .indexError
          | some j =>
              if h : j < s.toList.length then
                getChunks (.str (String.singleton (s.toList.get ⟨j, h⟩))) rest
              else .error .indexError
  | t, _ :: _ => .ok t

/-- `Kaptan._get`: split the key on `.` and run the traversal loop. -/
def Kaptan._get (t : ConfigTree) (key : String) : Except PyErr ConfigTree :=
  getChunks t (pySplitDot key)

/-- The error kinds caught by `get`'s
`except (KeyError, ValueError, IndexError)` clause. -/
def isSuppressed : PyErr → Bool
  | .keyError => true
  | .valueError => true
  | .indexError => true
  | _ => false

/-- Modelled from the spec: `DictHandler.dump` is the generic-mapping
pass-through serializer (the handler sources are not under `src/`; the
spec describes the dict handler as a pass-through). -/
def DictHandler.dump (t : ConfigTree) : ConfigTree := t

/-- `Kaptan.get`: an empty (or absent) key returns the whole
configuration via `export('dict')`; otherwise `_get` runs, and when a
default was supplied, `KeyError`/`ValueError`/`IndexError` are replaced
by the default. -/
def Kaptan.get (t : ConfigTree) (key : String) (default : Option ConfigTree) :
    Except PyErr ConfigTree :=
  if key = "" then .ok (DictHandler.dump t)
  else
    match Kaptan._get t key with
    | .ok v => .ok v
    | .error e =>
        match default with
        | some d => if isSuppressed e then .ok d else .error e
        | none => .error e

/-- Whether a node equals the Python string `s` (`==` between a tree
element and a `str`; in Python a `str` compares unequal to every dict,
list, int, bool and `None`). -/
def eqStrNode : ConfigTree → String → Bool
  | .str s2, s => s2 = s
  | _, _ => false

/-- Whether the first character list starts the second one. -/
def charsStartWith : List Char → List Char → Bool
  | [], _ => true
  | _ :: _, [] => false
  | a :: as, b :: bs => a = b && charsStartWith as bs

/-- Contiguous-substring containment on character lists (Python
`needle in haystack` for strings). -/
def charsContain (needle : List Char) : List Char → Bool
  | [] => needle.isEmpty
  | b :: rest => charsStartWith needle (b :: rest) || charsContain needle rest

/-- Python membership `s in container`: key containment for a dict,
element equality for a list, substring containment for a string;
`TypeError` for non-iterables (ints, bools, `None`). -/
def pyContains : ConfigTree → String → Except PyErr Bool
  | .map m, s => .ok (assocLookup m s).isSome
  | .seq xs, s => .ok (xs.any (fun x => eqStrNode x s))
  | .str s2, s => .ok (charsContain s.toList s2.toList)
  | _, _ => .error .typeError

/-- Final step of `Kaptan.add` after the container-path loop:
`replace=true` assigns unconditionally; otherwise an existing list
target gets `value` appended, an existing non-list target raises
`RuntimeError` only when the loop's `is_key_exist` flag was set (and is
silently left alone otherwise), and a missing target raises `KeyError`
which the `except KeyError` arm turns into an assignment.  A non-dict
container raises `TypeError` (uncaught). -/
def addFinal (t : ConfigTree) (newKey : String) (value : ConfigTree)
    (replace : Bool) (flag : Bool) : Except PyErr ConfigTree :=
  match t with
  | .map m =>
      if replace then .ok (.map (assocSet m newKey value))
      else
        match assocLookup m newKey with
        | none => .ok (.map (assocSet m newKey value))
        | some (.seq xs) => .ok (.map (assocSet m newKey (.seq (xs ++ [value]))))
        | some _ => if flag then .error .runtimeError else .ok (.map m)
  | _ => .error .typeError

/-- Container-path loop of `Kaptan.add`.  At each chunk the code first
evaluates `new_key in current_data[chunk]` (unless `replace` is set),
accumulating the sticky `is_key_exist` flag, then descends; a
`KeyError` from the chunk lookup is caught and a fresh empty dict is
inserted at the chunk before descending (auto-vivification).  A
non-dict current node raises `TypeError` (uncaught), as does a
membership test against a non-iterable child. -/
def addLoop : ConfigTree → List String → String → ConfigTree → Bool → Bool →
    Except PyErr ConfigTree
  | t, [], newKey, value, replace, flag => addFinal t newKey value replace flag
  | .map m, c :: rest, newKey, value, replace, flag =>
      match assocLookup m c with
      | some sub =>
          (if replace then Except.ok flag
           else (pyContains sub newKey).map (fun b => flag || b)).bind
            (fun flag2 =>
              (addLoop sub rest newKey value replace flag2).map
                (fun sub2 => .map (assocSet m c sub2)))
      | none =>
          (addLoop (.map []) rest newKey value replace flag).map
            (fun sub2 => .map (assocSet m c sub2))
  | _, _ :: _, _, _, _, _ => .error .typeError

/-- `Kaptan.add` on an already-split key: with more than one segment
the last segment becomes `new_key` and the loop walks the rest; with a
single segment the loop is skipped entirely, so `is_key_exist` stays
`False`. -/
def addSegs (t : ConfigTree) (keys : List String) (value : ConfigTree)
    (replace : Bool) : Except PyErr ConfigTree :=
  if keys.length > 1 then
    addLoop t keys.dropLast (keys.getLastD "") value replace false
  else
    addFinal t (keys.headD "") value replace false

/-- `Kaptan.add`: split the key on `.` and run the add engine. -/
def Kaptan.add (t : ConfigTree) (key : String) (value : ConfigTree)
    (replace : Bool) : Except PyErr ConfigTree :=
  addSegs t (pySplitDot key) value replace

/-- Python `list.pop(i)`: removes the element at (possibly negative)
index `i`; `none` models `IndexError`. -/
def pyPop (xs : List ConfigTree) (i : Int) : Option (List ConfigTree) :=
  (pyNormIdx i xs.length).map (fun j => xs.eraseIdx j)

/-- Final step of `Kaptan.remove`: when `index` is an int the code
evaluates `current_data[exact_key]` (`KeyError` when absent,
`TypeError` on a non-dict container) and pops that index when the value
is a list (`IndexError` when invalid); in every other case it runs
`del current_data[exact_key]` (`KeyError` when absent, `TypeError` on a
non-dict container). -/
def removeFinal (t : ConfigTree) (exactKey : String) (index : Option Int) :
    Except PyErr ConfigTree :=
  match index with
  | some i =>
      match t with
      | .map m =>
          match assocLookup m exactKey with
          | none => .error .keyError
          | some (.seq xs) =>
              match pyPop xs i with
              | none => .error .indexError
              | some xs2 => .ok (.map (assocSet m exactKey (.seq xs2)))
          | some _ => .ok (.map (assocDel m exactKey))
      | _ => .error .typeError
  | none =>
      match t with
      | .map m =>
          match assocLookup m exactKey with
          | none => .error .keyError
          | some _ => .ok (.map (assocDel m exactKey))
      | _ => .error .typeError

/-- Walk loop of `Kaptan.remove`: plain `current_data[chunk]` descent
with no auto-vivification — `KeyError` on a missing dict key,
`TypeError` when the current node is not a dict. -/
def removeWalk : ConfigTree → List String → String → Option Int →
    Except PyErr ConfigTree
  | t, [], exactKey, index => removeFinal t exactKey index
  | .map m, c :: rest, exactKey, index =>
      match assocLookup m c with
      | none => .error .keyError
      | some sub =>
          (removeWalk sub rest exactKey index).map
            (fun sub2 => .map (assocSet m c sub2))
  | _, _ :: _, _, _ => .error .typeError

/-- `Kaptan.remove` on an already-split key.  The `keys.pop()` that
strips the target segment off the walked list is guarded by
`len(keys) > 1`, but the walk loop itself is not: for a single-segment
key the loop still runs over `[key]`, descending INTO the target value
before `exact_key` (the same segment) is looked up again inside it. -/
def removeSegs (t : ConfigTree) (keys : List String) (index : Option Int) :
    Except PyErr ConfigTree :=
  if keys.length > 1 then
    removeWalk t keys.dropLast (keys.getLastD "") index
  else
    removeWalk t keys (keys.headD "") index

/-- `Kaptan.remove`: split the key on `.` and run the remove engine. -/
def Kaptan.remove (t : ConfigTree) (key : String) (index : Option Int) :
    Except PyErr ConfigTree :=
  removeSegs t (pySplitDot key) index

/-- `Kaptan.upsert`: `self.configuration_data.update({key: value})` —
an unconditional top-level dict assignment (Python `.update` on a
non-dict root raises `AttributeError`); the method then returns
`self`. -/
def Kaptan.upsert (t : ConfigTree) (key : String) (value : ConfigTree) :
    Except PyErr ConfigTree :=
  match t with
  | .map m => .ok (.map (assocSet m key value))
  | _ => .error .attributeError

/-- State-passing form of the `_get` traversal loop: alongside the
traversal result it threads `configuration_data` through, rebuilding
every container that was descended into (the functional rendering of
Python's in-place reference walk).  Since `_get` performs no
assignment, each rebuilt container holds the unchanged child. -/
def getChunksS : ConfigTree → List String → (Except PyErr ConfigTree) × ConfigTree
  | t, [] => (.ok t, t)
  | .map m, c :: rest =>
      match assocLookup m c with
      | some v =>
          let p := getChunksS v rest
          (p.1, .map (assocSet m c p.2))
      | none => (.error .keyError, .map m)
  | .seq xs, c :: rest =>
      match pyToInt c with
      | none => (.error .valueError, .seq xs)
      | some i =>
          match pyNormIdx i xs.length with
          | none => (.error .indexError, .seq xs)
          | some j =>
              if h : j < xs.length then
                let p := getChunksS (xs.get ⟨j, h⟩) rest
                (p.1, .seq (xs.set j p.2))
              else (.error .indexError, .seq xs)
  | .str s, c :: rest =>
      match pyToInt c with
      | none => (.error .valueError, .str s)
      | some i =>
          match pyNormIdx i s.toList.length with
          | none => (.error .indexError, .str s)
          | some j =>
              if h : j < s.toList.length then
                ((getChunksS (.str (String.singleton (s.toList.get ⟨j, h⟩))) rest).1, .str s)
              else (.error .indexError, .str s)
  | t, _ :: _ => (.ok t, t)

/-- State-passing form of `Kaptan.get`: the first component is the
call's result, the second is `configuration_data` after the call. -/
def Kaptan.getS (t : ConfigTree) (key : String) (default : Option ConfigTree) :
    (Except PyErr ConfigTree) × ConfigTree :=
  if key = "" then (.ok (DictHandler.dump t), t)
  else
    let p := getChunksS t (pySplitDot key)
    match p.1 with
    | .ok v => (.ok v, p.2)
    | .error e =>
        match default with
        | some d => if isSuppressed e then (.ok d, p.2) else (.error e, p.2)
        | none => (.error e, p.2)

/-- The five entries of `Kaptan.HANDLER_MAP`. -/
inductive HandlerKind where
  | json
  | dict
  | yaml
  | file
  | ini
deriving DecidableEq, Repr

/-- Abstraction of the file-system queries `import_config` makes:
`os.path.isfile`, reading a file's text, and
`os.path.abspath(os.path.expanduser(·))` (composed into one map). -/
structure FileSys where
  isfile : String → Bool
  content : String → String
  abspath : String → String

/-- Python `os.path.splitext(s)[1][1:]`: the extension of the basename
without its dot, empty when the basename has no dot or only leading
dots before the last dot. -/
def splitextExt (s : String) : String :=
  let base := (splitSep '/' s.toList).getLastD []
  match splitSep '.' base with
  | [] => ""
  | [_] => ""
  | parts =>
      if (parts.dropLast).all (fun g => g.isEmpty) then ""
      else String.mk (parts.getLastD [])

/-- Python `s.endswith(suf)`. -/
def pyEndsWith (s suf : String) : Bool :=
  charsStartWith suf.toList.reverse s.toList.reverse

/-- `Kaptan._is_python_file`: the value has a `py` extension, or a
same-named file with `.py` appended exists. -/
def Kaptan._is_python_file (fs : FileSys) (value : String) : Bool :=
  splitextExt value = "py" || fs.isfile (value ++ ".py")

/-- The `HANDLER_EXT` table (extension → handler-map key). -/
def handlerExt : String → Option String
  | "ini" => some "ini"
  | "conf" => some "ini"
  | "yaml" => some "yaml"
  | "yml" => some "yaml"
  | "json" => some "json"
  | "py" => some "file"
  | _ => none

/-- The `Kaptan.HANDLER_MAP` table (key → handler). -/
def handlerMap : String → Option HandlerKind
  | "json" => some .json
  | "dict" => some .dict
  | "yaml" => some .yaml
  | "file" => some .file
  | "ini" => some .ini
  | _ => none

/-- Argument of `import_config`: a native dict, or a string (file path
or raw content). -/
inductive ImportValue where
  | dictV : List (String × ConfigTree) → ImportValue
  | strV : String → ImportValue

/-- What `import_config` hands to the selected handler's `load`: the
dict branch passes the mapping itself (already a tree), the file and
raw branches pass text, the python-file branch passes an absolute
path. -/
inductive LoadData where
  | tree : ConfigTree → LoadData
  | text : String → LoadData
  | pyPath : String → LoadData

/-- Modelled from the spec: `DictHandler.load` is the generic-mapping
pass-through parser (`load(raw) -> tree` with dict capability; the
handler sources are not under `src/`). -/
def DictHandler.load (t : ConfigTree) : ConfigTree := t

/-- `Kaptan.import_config`, modelled up to the final `handler.load`
delegation: returns the handler that ends up selected together with the
argument passed to its `load`.  Branches, in source order: a native
dict uses the dict handler on the value itself; an existing non-python
file keeps a previously set handler or infers one from the extension
(any failure of that inference raises `RuntimeError`); a python file
resolves to an absolute `.py` path and raises `IOError` when missing;
otherwise the value is raw content for a previously set handler, and
`RuntimeError` is raised when there is none. -/
def Kaptan.import_config (fs : FileSys) (handler : Option HandlerKind)
    (value : ImportValue) : Except PyErr (HandlerKind × LoadData) :=
  match value with
  | .dictV m => .ok (.dict, .tree (DictHandler.load (.map m)))
  | .strV s =>
      if fs.isfile s && !(Kaptan._is_python_file fs s) then
        match handler with
        | some h => .ok (h, .text (fs.content s))
        | none =>
            match handlerExt (splitextExt s) with
            | none => .error .runtimeError
            | some k =>
                match handlerMap k with
                | none => .error .runtimeError
                | some h => .ok (h, .text (fs.content s))
      else if Kaptan._is_python_file fs s then
        let v2 := if pyEndsWith s ".py" then s else s ++ ".py"
        let data := fs.abspath v2
        if fs.isfile data then .ok (.file, .pyPath data)
        else .error .ioError
      else
        match handler with
        | none => .error .runtimeError
        | some h => .ok (h, .text s)

/-- Nested mapping chain produced by `add`'s auto-vivification when
every container-path chunk is missing: `{c1: {c2: ... {newKey: v}}}`. -/
def vivChain (chunks : List String) (newKey : String) (v : ConfigTree) : ConfigTree :=
  chunks.foldr (fun c acc => .map [(c, acc)]) (.map [(newKey, v)])

/-- Whether `add`'s walk of `chunks` (replace=false) ends in a
`RuntimeError`: every chunk must resolve through dicts to the final
container, and the target key must exist there with a non-list
value. -/
def addDup (newKey : String) : ConfigTree → List String → Bool
  | .map m, [] =>
      match assocLookup m newKey with
      | some (.seq _) => false
      | some _ => true
      | none => false
  | .map m, c :: rest =>
      match assocLookup m c with
      | some sub => addDup newKey sub rest
      | none => false
  | _, _ => false

/-- Whether every existing node along `add`'s container path — the
final container included — is a dict (missing chunks count as fine:
they are auto-vivified as fresh empty dicts all the way down). -/
def addPathOk : ConfigTree → List String → Bool
  | t, [] => t.isMap
  | .map m, c :: rest =>
      match assocLookup m c with
      | none => true
      | some sub => addPathOk sub rest
  | _, _ :: _ => false

/-- Concrete file system with no files, used to instantiate the
`import_config` theorems. -/
def fsEmpty : FileSys where
  isfile := fun _ => false
  content := fun _ => ""
  abspath := fun s => s












/-! ### Helper lemmas -/

theorem assocSet_self (m : List (String × ConfigTree)) (c : String) (v : ConfigTree)
    (h : assocLookup m c = some v) : assocSet m c v = m := by
  induction m with
  | nil => simp [assocLookup] at h
  | cons p rest ih =>
      obtain ⟨k, w⟩ := p
      by_cases hk : k = c
      · subst hk
        simp [assocLookup] at h
        simp [assocSet, h]
      · simp [assocLookup, hk] at h
        simp [assocSet, hk, ih h]

theorem assocLookup_set_self (m : List (String × ConfigTree)) (key : String)
    (value : ConfigTree) : assocLookup (assocSet m key value) key = some value := by
  induction m with
  | nil => simp [assocSet, assocLookup]
  | cons p rest ih =>
      obtain ⟨k, w⟩ := p
      by_cases hk : k = key <;> simp [assocSet, assocLookup, hk, ih]

theorem assocLookup_set_ne (m : List (String × ConfigTree)) (key : String)
    (value : ConfigTree) (k : String) (h : k ≠ key) :
    assocLookup (assocSet m key value) k = assocLookup m k := by
  induction m with
  | nil => simp [assocSet, assocLookup, Ne.symm h]
  | cons p rest ih =>
      obtain ⟨k0, w⟩ := p
      by_cases hk : k0 = key
      · subst hk
        simp [assocSet, assocLookup, Ne.symm h]
      · by_cases hk2 : k0 = k <;> simp [assocSet, assocLookup, hk, hk2, h, ih]

theorem list_set_get_self {α : Type} (xs : List α) (j : Nat) (h : j < xs.length) :
    xs.set j xs[j] = xs := by
  induction xs generalizing j with
  | nil => cases h
  | cons a rest ih =>
      cases j with
      | zero => rfl
      | succ n =>
          have hn : n < rest.length := Nat.lt_of_succ_lt_succ h
          exact congrArg (fun l => a :: l) (ih n hn)

theorem getChunksS_eq (segs : List String) :
    ∀ t : ConfigTree, getChunksS t segs = (getChunks t segs, t) := by
  induction segs with
  | nil => intro t; cases t <;> rfl
  | cons c rest ih =>
      intro t
      cases t with
      | map m =>
          simp only [getChunksS, getChunks]
          cases hl : assocLookup m c with
          | none => rfl
          | some v => simp [ih v, assocSet_self m c v hl]
      | seq xs =>
          simp only [getChunksS, getChunks]
          cases pyToInt c with
          | none => rfl
          | some i =>
              dsimp only
              cases pyNormIdx i xs.length with
              | none => rfl
              | some j =>
                  dsimp only
                  by_cases hj : j < xs.length
                  · rw [dif_pos hj, dif_pos hj]
                    have hset := list_set_get_self xs j hj
                    simp [ih, hset]
                  · rw [dif_neg hj, dif_neg hj]
      | str s =>
          simp only [getChunksS, getChunks]
          cases pyToInt c with
          | none => rfl
          | some i =>
              dsimp only
              cases pyNormIdx i s.toList.length with
              | none => rfl
              | some j =>
                  dsimp only
                  by_cases hj : j < s.toList.length
                  · rw [dif_pos hj, dif_pos hj]
                    simp [ih]
                  · rw [dif_neg hj, dif_neg hj]
      | int n => rfl
      | bool b => rfl
      | null => rfl

theorem getChunks_error_suppressed :
    ∀ (segs : List String) (t : ConfigTree) (e : PyErr),
      getChunks t segs = .error e → isSuppressed e = true := by
  intro segs
  induction segs with
  | nil =>
      intro t e h
      simp [getChunks] at h
  | cons c rest ih =>
      intro t e h
      cases t with
      | map m =>
          simp only [getChunks] at h
          cases hl : assocLookup m c with
          | none =>
              rw [hl] at h
              dsimp only at h
              cases h
              rfl
          | some v =>
              rw [hl] at h
              exact ih v e h
      | seq xs =>
          simp only [getChunks] at h
          cases h1 : pyToInt c with
          | none =>
              rw [h1] at h
              cases h
              rfl
          | some i =>
              rw [h1] at h
              dsimp only at h
              cases h2 : pyNormIdx i xs.length with
              | none =>
                  rw [h2] at h
                  cases h
                  rfl
              | some j =>
                  rw [h2] at h
                  dsimp only at h
                  by_cases hj : j < xs.length
                  · rw [dif_pos hj] at h
                    exact ih _ e h
                  · rw [dif_neg hj] at h
                    cases h
                    rfl
      | str s =>
          simp only [getChunks] at h
          cases h1 : pyToInt c with
          | none =>
              rw [h1] at h
              cases h
              rfl
          | some i =>
              rw [h1] at h
              dsimp only at h
              cases h2 : pyNormIdx i s.toList.length with
              | none =>
                  rw [h2] at h
                  cases h
                  rfl
              | some j =>
                  rw [h2] at h
                  dsimp only at h
                  by_cases hj : j < s.toList.length
                  · rw [dif_pos hj] at h
                    exact ih _ e h
                  · rw [dif_neg hj] at h
                    cases h
                    rfl
      | int n => cases h
      | bool b => cases h
      | null => cases h

theorem except_map_eq_error {α β : Type} (f : α → β) (r : Except PyErr α) (e : PyErr) :
    r.map f = Except.error e ↔ r = .error e := by
  cases r <;> simp [Except.map]

theorem except_map_eq_ok {α β : Type} (f : α → β) (r : Except PyErr α) (b : β) :
    r.map f = Except.ok b ↔ ∃ a, r = .ok a ∧ f a = b := by
  cases r <;> simp [Except.map]

theorem except_bind_eq_error {α β : Type} (g : α → Except PyErr β)
    (r : Except PyErr α) (e : PyErr) :
    r.bind g = Except.error e ↔
      (r = .error e ∨ ∃ a, r = .ok a ∧ g a = .error e) := by
  cases r <;> simp [Except.bind]

theorem addLoop_empty (chunks : List String) :
    ∀ (k : String) (v : ConfigTree) (replace flag : Bool),
      addLoop (.map []) chunks k v replace flag = .ok (vivChain chunks k v) := by
  induction chunks with
  | nil =>
      intro k v replace flag
      cases replace <;> rfl
  | cons c rest ih =>
      intro k v replace flag
      simp only [addLoop, assocLookup]
      rw [ih]
      rfl

theorem addDup_nil_isSome (m2 : List (String × ConfigTree)) (k : String)
    (h : addDup k (.map m2) [] = true) : (assocLookup m2 k).isSome = true := by
  simp only [addDup] at h
  cases hl : assocLookup m2 k with
  | none => rw [hl] at h; cases h
  | some w => rfl

theorem addFinal_runtime_iff (t : ConfigTree) (k : String) (v : ConfigTree) (flag : Bool) :
    addFinal t k v false flag = .error .runtimeError
      ↔ (addDup k t [] = true ∧ flag = true) := by
  cases t with
  | map m =>
      simp only [addFinal, addDup]
      cases hl : assocLookup m k with
      | none => simp
      | some w => cases w <;> cases flag <;> simp
  | seq xs => simp [addFinal, addDup]
  | str s => simp [addFinal, addDup]
  | int n => simp [addFinal, addDup]
  | bool b => simp [addFinal, addDup]
  | null => simp [addFinal, addDup]

theorem addLoop_cons_some (m : List (String × ConfigTree)) (c : String)
    (rest : List String) (k : String) (v : ConfigTree) (flag : Bool)
    (sub : ConfigTree) (hl : assocLookup m c = some sub)
    (b : Bool) (hc : pyContains sub k = .ok b) :
    addLoop (.map m) (c :: rest) k v false flag
      = (addLoop sub rest k v false (flag || b)).map
          (fun sub2 => .map (assocSet m c sub2)) := by
  simp [addLoop, hl, hc, Except.map, Except.bind]

theorem addLoop_cons_some_err (m : List (String × ConfigTree)) (c : String)
    (rest : List String) (k : String) (v : ConfigTree) (flag : Bool)
    (sub : ConfigTree) (hl : assocLookup m c = some sub)
    (e : PyErr) (hc : pyContains sub k = .error e) :
    addLoop (.map m) (c :: rest) k v false flag = .error e := by
  simp [addLoop, hl, hc, Except.map, Except.bind]

theorem addLoop_cons_none (m : List (String × ConfigTree)) (c : String)
    (rest : List String) (k : String) (v : ConfigTree) (replace flag : Bool)
    (hl : assocLookup m c = none) :
    addLoop (.map m) (c :: rest) k v replace flag
      = .ok (.map (assocSet m c (vivChain rest k v))) := by
  simp [addLoop, hl, addLoop_empty, Except.map]

theorem addDup_nonmap (k : String) (t : ConfigTree) (chunks : List String)
    (h : t.isMap = false) : addDup k t chunks = false := by
  cases t with
  | map m => simp [ConfigTree.isMap] at h
  | seq xs => cases chunks <;> rfl
  | str s => cases chunks <;> rfl
  | int n => cases chunks <;> rfl
  | bool b => cases chunks <;> rfl
  | null => cases chunks <;> rfl

theorem addLoop_runtime_iff (chunks : List String) :
    ∀ (t : ConfigTree) (k : String) (v : ConfigTree) (flag : Bool),
      addLoop t chunks k v false flag = .error .runtimeError
        ↔ (addDup k t chunks = true ∧ (chunks = [] → flag = true)) := by
  induction chunks with
  | nil =>
      intro t k v flag
      have h0 : addLoop t [] k v false flag = addFinal t k v false flag := by
        cases t <;> rfl
      rw [h0, addFinal_runtime_iff]
      simp
  | cons c rest ih =>
      intro t k v flag
      cases t with
      | map m =>
          cases hl : assocLookup m c with
          | none =>
              rw [addLoop_cons_none m c rest k v false flag hl]
              simp [addDup, hl]
          | some sub =>
              cases sub with
              | map m2 =>
                  rw [addLoop_cons_some m c rest k v flag (.map m2) hl
                        ((assocLookup m2 k).isSome) rfl,
                      except_map_eq_error,
                      ih (.map m2) k v (flag || (assocLookup m2 k).isSome)]
                  simp only [addDup, hl]
                  constructor
                  · rintro ⟨hd, _⟩
                    exact ⟨hd, by simp⟩
                  · rintro ⟨hd, _⟩
                    refine ⟨hd, ?_⟩
                    intro hrest
                    subst hrest
                    have hs := addDup_nil_isSome m2 k hd
                    simp [hs]
              | seq xs =>
                  rw [addLoop_cons_some m c rest k v flag (.seq xs) hl _ rfl,
                      except_map_eq_error, ih]
                  have h1 : addDup k (ConfigTree.seq xs) rest = false :=
                    addDup_nonmap k _ rest rfl
                  simp [addDup, hl, h1]
              | str s =>
                  rw [addLoop_cons_some m c rest k v flag (.str s) hl _ rfl,
                      except_map_eq_error, ih]
                  have h1 : addDup k (ConfigTree.str s) rest = false :=
                    addDup_nonmap k _ rest rfl
                  simp [addDup, hl, h1]
              | int n =>
                  rw [addLoop_cons_some_err m c rest k v flag (.int n) hl .typeError rfl]
                  have h1 : addDup k (ConfigTree.int n) rest = false :=
                    addDup_nonmap k _ rest rfl
                  simp [addDup, hl, h1]
              | bool b =>
                  rw [addLoop_cons_some_err m c rest k v flag (.bool b) hl .typeError rfl]
                  have h1 : addDup k (ConfigTree.bool b) rest = false :=
                    addDup_nonmap k _ rest rfl
                  simp [addDup, hl, h1]
              | null =>
                  rw [addLoop_cons_some_err m c rest k v flag .null hl .typeError rfl]
                  have h1 : addDup k ConfigTree.null rest = false :=
                    addDup_nonmap k _ rest rfl
                  simp [addDup, hl, h1]
      | seq xs =>
          have h1 : addDup k (ConfigTree.seq xs) (c :: rest) = false :=
            addDup_nonmap k _ _ rfl
          simp [addLoop, h1]
      | str s =>
          have h1 : addDup k (ConfigTree.str s) (c :: rest) = false :=
            addDup_nonmap k _ _ rfl
          simp [addLoop, h1]
      | int n =>
          have h1 : addDup k (ConfigTree.int n) (c :: rest) = false :=
            addDup_nonmap k _ _ rfl
          simp [addLoop, h1]
      | bool b =>
          have h1 : addDup k (ConfigTree.bool b) (c :: rest) = false :=
            addDup_nonmap k _ _ rfl
          simp [addLoop, h1]
      | null =>
          have h1 : addDup k ConfigTree.null (c :: rest) = false :=
            addDup_nonmap k _ _ rfl
          simp [addLoop, h1]

theorem addLoop_nil (t : ConfigTree) (k : String) (v : ConfigTree) (r f : Bool) :
    addLoop t [] k v r f = addFinal t k v r f := by
  cases t <;> rfl

theorem addFinal_map_none (m : List (String × ConfigTree)) (k : String)
    (v : ConfigTree) (flag : Bool) (hl : assocLookup m k = none) :
    addFinal (.map m) k v false flag = .ok (.map (assocSet m k v)) := by
  simp [addFinal, hl]

theorem addFinal_map_seq (m : List (String × ConfigTree)) (k : String)
    (v : ConfigTree) (flag : Bool) (xs : List ConfigTree)
    (hl : assocLookup m k = some (.seq xs)) :
    addFinal (.map m) k v false flag
      = .ok (.map (assocSet m k (.seq (xs ++ [v])))) := by
  simp [addFinal, hl]

theorem addFinal_map_other (m : List (String × ConfigTree)) (k : String)
    (v : ConfigTree) (flag : Bool) (w : ConfigTree)
    (hl : assocLookup m k = some w) (hw : w.isSeqB = false) :
    addFinal (.map m) k v false flag
      = if flag then .error .runtimeError else .ok (.map m) := by
  cases w with
  | seq xs => simp [ConfigTree.isSeqB] at hw
  | map m2 => simp [addFinal, hl]
  | str s => simp [addFinal, hl]
  | int n => simp [addFinal, hl]
  | bool b => simp [addFinal, hl]
  | null => simp [addFinal, hl]

theorem getChunks_vivChain (rest : List String) (k : String) (v : ConfigTree) :
    getChunks (vivChain rest k v) (rest ++ [k]) = .ok v := by
  induction rest with
  | nil => simp [vivChain, getChunks, assocLookup]
  | cons c rs ih =>
      simp [vivChain, getChunks, assocLookup]
      simpa [vivChain] using ih

theorem addLoop_ok_get (chunks : List String) :
    ∀ (t : ConfigTree) (k : String) (v : ConfigTree) (flag : Bool) (t2 : ConfigTree),
      addLoop t chunks k v false flag = .ok t2 →
      (∃ xs, getChunks t (chunks ++ [k]) = .ok (.seq xs)
          ∧ getChunks t2 (chunks ++ [k]) = .ok (.seq (xs ++ [v])))
      ∨ (chunks = [] ∧ flag = false
          ∧ ∃ m w, t = .map m ∧ assocLookup m k = some w ∧ w.isSeqB = false ∧ t2 = t)
      ∨ getChunks t2 (chunks ++ [k]) = .ok v := by
  induction chunks with
  | nil =>
      intro t k v flag t2 h
      rw [addLoop_nil] at h
      cases t with
      | map m =>
          cases hl : assocLookup m k with
          | none =>
              rw [addFinal_map_none m k v flag hl] at h
              cases h
              right; right
              simp [getChunks, assocLookup_set_self]
          | some w =>
              cases w with
              | seq xs =>
                  rw [addFinal_map_seq m k v flag xs hl] at h
                  cases h
                  left
                  refine ⟨xs, ?_, ?_⟩
                  · simp [getChunks, hl]
                  · simp [getChunks, assocLookup_set_self]
              | map m2 =>
                  rw [addFinal_map_other m k v flag (.map m2) hl rfl] at h
                  cases hf : flag
                  · rw [hf] at h
                    simp only [if_false, Bool.false_eq_true] at h
                    cases h
                    exact Or.inr (Or.inl ⟨rfl, rfl, m, .map m2, rfl, hl, rfl, rfl⟩)
                  · rw [hf] at h
                    simp at h
              | str s =>
                  rw [addFinal_map_other m k v flag (.str s) hl rfl] at h
                  cases hf : flag
                  · rw [hf] at h
                    simp only [if_false, Bool.false_eq_true] at h
                    cases h
                    exact Or.inr (Or.inl ⟨rfl, rfl, m, .str s, rfl, hl, rfl, rfl⟩)
                  · rw [hf] at h
                    simp at h
              | int n =>
                  rw [addFinal_map_other m k v flag (.int n) hl rfl] at h
                  cases hf : flag
                  · rw [hf] at h
                    simp only [if_false, Bool.false_eq_true] at h
                    cases h
                    exact Or.inr (Or.inl ⟨rfl, rfl, m, .int n, rfl, hl, rfl, rfl⟩)
                  · rw [hf] at h
                    simp at h
              | bool b =>
                  rw [addFinal_map_other m k v flag (.bool b) hl rfl] at h
                  cases hf : flag
                  · rw [hf] at h
                    simp only [if_false, Bool.false_eq_true] at h
                    cases h
                    exact Or.inr (Or.inl ⟨rfl, rfl, m, .bool b, rfl, hl, rfl, rfl⟩)
                  · rw [hf] at h
                    simp at h
              | null =>
                  rw [addFinal_map_other m k v flag .null hl rfl] at h
                  cases hf : flag
                  · rw [hf] at h
                    simp only [if_false, Bool.false_eq_true] at h
                    cases h
                    exact Or.inr (Or.inl ⟨rfl, rfl, m, .null, rfl, hl, rfl, rfl⟩)
                  · rw [hf] at h
                    simp at h
      | seq xs => simp [addFinal] at h
      | str s => simp [addFinal] at h
      | int n => simp [addFinal] at h
      | bool b => simp [addFinal] at h
      | null => simp [addFinal] at h
  | cons c rest ih =>
      intro t k v flag t2 h
      cases t with
      | map m =>
          cases hl : assocLookup m c with
          | none =>
              rw [addLoop_cons_none m c rest k v false flag hl] at h
              cases h
              right; right
              simp only [List.cons_append, getChunks, assocLookup_set_self]
              exact getChunks_vivChain rest k v
          | some sub =>
              cases hc : pyContains sub k with
              | error e =>
                  rw [addLoop_cons_some_err m c rest k v flag sub hl e hc] at h
                  cases h
              | ok b =>
                  rw [addLoop_cons_some m c rest k v flag sub hl b hc] at h
                  rw [except_map_eq_ok] at h
                  obtain ⟨sub2, hsub2, hmap⟩ := h
                  subst hmap
                  rcases ih sub k v (flag || b) sub2 hsub2 with
                    ⟨xs, hx1, hx2⟩ |
                    ⟨hrest, hflag2, m2, w, hsubm, hlw, hwseq, hsub2eq⟩ | h3
                  · left
                    refine ⟨xs, ?_, ?_⟩
                    · simpa [getChunks, hl] using hx1
                    · simp [getChunks, assocLookup_set_self, hx2]
                  · exfalso
                    subst hsubm
                    have hb : b = (assocLookup m2 k).isSome := by
                      simp only [pyContains] at hc
                      exact (Except.ok.inj hc).symm
                    rw [hlw] at hb
                    simp at hb
                    rw [hb] at hflag2
                    simp at hflag2
                  · right; right
                    simp [getChunks, assocLookup_set_self, h3]
      | seq xs => simp [addLoop] at h
      | str s => simp [addLoop] at h
      | int n => simp [addLoop] at h
      | bool b => simp [addLoop] at h
      | null => simp [addLoop] at h

theorem addLoop_pathOk (chunks : List String) :
    ∀ (t : ConfigTree) (k : String) (v : ConfigTree) (flag : Bool),
      addPathOk t chunks = true →
      addLoop t chunks k v false flag ≠ .error .typeError := by
  induction chunks with
  | nil =>
      intro t k v flag hok h
      rw [addLoop_nil] at h
      cases t with
      | map m =>
          cases hl : assocLookup m k with
          | none => rw [addFinal_map_none m k v flag hl] at h; cases h
          | some w =>
              cases hw : w.isSeqB with
              | true =>
                  cases w with
                  | seq xs => rw [addFinal_map_seq m k v flag xs hl] at h; cases h
                  | map m2 => simp [ConfigTree.isSeqB] at hw
                  | str s => simp [ConfigTree.isSeqB] at hw
                  | int n => simp [ConfigTree.isSeqB] at hw
                  | bool b => simp [ConfigTree.isSeqB] at hw
                  | null => simp [ConfigTree.isSeqB] at hw
              | false =>
                  rw [addFinal_map_other m k v flag w hl hw] at h
                  cases hf : flag <;> rw [hf] at h <;> simp at h
      | seq xs => simp [addPathOk, ConfigTree.isMap] at hok
      | str s => simp [addPathOk, ConfigTree.isMap] at hok
      | int n => simp [addPathOk, ConfigTree.isMap] at hok
      | bool b => simp [addPathOk, ConfigTree.isMap] at hok
      | null => simp [addPathOk, ConfigTree.isMap] at hok
  | cons c rest ih =>
      intro t k v flag hok h
      cases t with
      | map m =>
          cases hl : assocLookup m c with
          | none => rw [addLoop_cons_none m c rest k v false flag hl] at h; cases h
          | some sub =>
              have hok2 : addPathOk sub rest = true := by
                simpa [addPathOk, hl] using hok
              have hsubmap : sub.isMap = true := by
                cases rest with
                | nil => simpa [addPathOk] using hok2
                | cons r rs =>
                    cases sub with
                    | map m2 => rfl
                    | seq xs => simp [addPathOk] at hok2
                    | str s => simp [addPathOk] at hok2
                    | int n => simp [addPathOk] at hok2
                    | bool b => simp [addPathOk] at hok2
                    | null => simp [addPathOk] at hok2
              cases sub with
              | map m2 =>
                  rw [addLoop_cons_some m c rest k v flag (.map m2) hl
                        ((assocLookup m2 k).isSome) rfl] at h
                  rw [except_map_eq_error] at h
                  exact ih (.map m2) k v _ hok2 h
              | seq xs => simp [ConfigTree.isMap] at hsubmap
              | str s => simp [ConfigTree.isMap] at hsubmap
              | int n => simp [ConfigTree.isMap] at hsubmap
              | bool b => simp [ConfigTree.isMap] at hsubmap
              | null => simp [ConfigTree.isMap] at hsubmap
      | seq xs => simp [addPathOk] at hok
      | str s => simp [addPathOk] at hok
      | int n => simp [addPathOk] at hok
      | bool b => simp [addPathOk] at hok
      | null => simp [addPathOk] at hok

theorem getLastD_eq_getLast {α : Type} (l : List α) (d : α) (h : l ≠ []) :
    l.getLastD d = l.getLast h := by
  cases l with
  | nil => exact absurd rfl h
  | cons a rest => rw [List.getLastD_cons, List.getLast_eq_getLastD]

theorem dropLast_append_getLastD {α : Type} (l : List α) (d : α) (h : l ≠ []) :
    l.dropLast ++ [l.getLastD d] = l := by
  rw [getLastD_eq_getLast l d h]
  exact List.dropLast_append_getLast h

/-! ### Claim theorems -/

/-- C1: starting from the tree `{"a": {"b": [1, 2]}}`: `get("a.b.1")`
returns `2`; `get("a.b.5", default=-1)` returns `-1`; `add("a.b", 3)`
with replace=false transforms the tree into `{"a": {"b": [1, 2, 3]}}`;
then `remove("a.b", index=0)` yields `{"a": {"b": [2, 3]}}`; then
`remove("a.b")` yields `{"a": {}}`. -/
theorem kaptan_example_chain :
    Kaptan.get (.map [("a", .map [("b", .seq [.int 1, .int 2])])]) "a.b.1" none
      = .ok (.int 2)
    ∧ Kaptan.get (.map [("a", .map [("b", .seq [.int 1, .int 2])])]) "a.b.5"
        (some (.int (-1))) = .ok (.int (-1))
    ∧ Kaptan.add (.map [("a", .map [("b", .seq [.int 1, .int 2])])]) "a.b"
        (.int 3) false
      = .ok (.map [("a", .map [("b", .seq [.int 1, .int 2, .int 3])])])
    ∧ Kaptan.remove (.map [("a", .map [("b", .seq [.int 1, .int 2, .int 3])])])
        "a.b" (some 0)
      = .ok (.map [("a", .map [("b", .seq [.int 2, .int 3])])])
    ∧ Kaptan.remove (.map [("a", .map [("b", .seq [.int 2, .int 3])])]) "a.b" none
      = .ok (.map [("a", .map [])]) :=
  ⟨rfl, rfl, rfl, rfl, rfl⟩

/-- C3 counterexample: on the tree `{"a": "hi"}` the path `"a.x"`
reaches the scalar string `"hi"` with a segment remaining, but `_get`
does NOT stop and return the scalar: Python strings are `collections`
`Sequence`s, so the segment is parsed as an index and a `ValueError`
is raised instead. -/
theorem kaptan_get_scalar_cex :
    Kaptan._get (.map [("a", .str "hi")]) "a.x" = .error .valueError
    ∧ Kaptan._get (.map [("a", .str "hi")]) "a.x" ≠ .ok (.str "hi") :=
  ⟨rfl, fun h => nomatch h⟩

/-- C3 (amended): when `_get`'s traversal reaches a node that is
neither a Mapping nor a `collections` `Sequence` — an int, bool or
`None`, but NOT a string, since Python strings are Sequences and get
indexed character-wise — the traversal stops immediately and returns
that node for every suffix of remaining segments, without error. -/
theorem kaptan_get_scalar_amended (t : ConfigTree) (segs : List String)
    (h : t.isPyScalar = true) : getChunks t segs = .ok t := by
  cases segs with
  | nil => cases t <;> rfl
  | cons c rest =>
      cases t with
      | map m => simp [ConfigTree.isPyScalar] at h
      | seq xs => simp [ConfigTree.isPyScalar] at h
      | str s => simp [ConfigTree.isPyScalar] at h
      | int n => rfl
      | bool b => rfl
      | null => rfl

theorem kaptan_get_scalar_amended_witness :
    getChunks (.int 7) ["a", "b"] = .ok (.int 7) :=
  kaptan_get_scalar_amended (.int 7) ["a", "b"] rfl

/-- C5: evaluation at the failing inputs.  For a single-segment key the
walk loop still runs over `[key]` (only `keys.pop()` is guarded by
`len(keys) > 1`), so `remove` descends INTO the target value before
looking the segment up again inside it: `remove("a")` on `{"a": {}}`
raises `KeyError` instead of deleting the key (the claim requires
`{}`); on `{"a": 1}` it raises `TypeError`; on `{"a": {"a": 1}}` it
deletes the INNER `"a"`.  Multi-segment paths behave as the claim
states (last conjunct). -/
theorem kaptan_remove_single_bug :
    Kaptan.remove (.map [("a", .map [])]) "a" none = .error .keyError
    ∧ Kaptan.remove (.map [("a", .int 1)]) "a" none = .error .typeError
    ∧ Kaptan.remove (.map [("a", .map [("a", .int 1)])]) "a" none
        = .ok (.map [("a", .map [])])
    ∧ Kaptan.remove (.map [("a", .map [("b", .int 1)])]) "a.b" none
        = .ok (.map [("a", .map [])]) :=
  ⟨rfl, rfl, rfl, rfl⟩

/-- C9: `get` never mutates `configuration_data` — in the
state-passing rendering of the traversal (which rebuilds every
container it walked through, exactly as Python's reference walk leaves
them), the resulting state equals the input tree for every key and
default, including the empty-key whole-config form. -/
theorem kaptan_get_no_mutation (t : ConfigTree) (key : String)
    (default : Option ConfigTree) :
    Kaptan.getS t key default = (Kaptan.get t key default, t) := by
  unfold Kaptan.getS Kaptan.get Kaptan._get
  by_cases hk : key = ""
  · simp [hk]
  · simp only [hk, if_false]
    rw [getChunksS_eq]
    cases hr : getChunks t (pySplitDot key) with
    | ok v => simp
    | error e =>
        cases default with
        | none => simp
        | some d => by_cases hs : isSuppressed e <;> simp [hs]

/-- C10: `upsert(key, value)` unconditionally sets the top-level entry
`key` to `value` in the configuration dict — overwriting any existing
value, never appending to a list, never raising — leaves every other
top-level key unchanged, and returns the store. -/
theorem kaptan_upsert_sets (m : List (String × ConfigTree)) (key : String)
    (value : ConfigTree) :
    Kaptan.upsert (.map m) key value = .ok (.map (assocSet m key value))
    ∧ assocLookup (assocSet m key value) key = some value
    ∧ ∀ k, k ≠ key → assocLookup (assocSet m key value) k = assocLookup m k :=
  ⟨rfl, assocLookup_set_self m key value,
   fun k hk => assocLookup_set_ne m key value k hk⟩

theorem kaptan_upsert_sets_witness :
    Kaptan.upsert (.map [("a", .int 1)]) "a" (.int 2) = .ok (.map [("a", .int 2)])
    ∧ assocLookup (assocSet [("a", .int 1)] "a" (.int 2)) "a" = some (.int 2)
    ∧ assocLookup (assocSet [("a", .int 1)] "a" (.int 2)) "b"
        = assocLookup [("a", .int 1)] "b" :=
  ⟨(kaptan_upsert_sets [("a", .int 1)] "a" (.int 2)).1,
   (kaptan_upsert_sets [("a", .int 1)] "a" (.int 2)).2.1,
   (kaptan_upsert_sets [("a", .int 1)] "a" (.int 2)).2.2 "b" (by decide)⟩

/-- C6: for every tree, non-empty key and default `d`: when `_get`
succeeds with `v`, `get` returns `v` whether or not a default was
given; when `_get` fails, the error kind is always one of
`KeyError`/`ValueError`/`IndexError` (`NotFound`/`InvalidIndex`/
`IndexOutOfRange` — no other kind ever arises, so no other kind is
ever suppressed), `get` with a default returns the default, and `get`
without one propagates the error. -/
theorem kaptan_get_default_suppression (t : ConfigTree) (key : String)
    (d : ConfigTree) (hk : key ≠ "") :
    (∀ v, Kaptan._get t key = .ok v →
        Kaptan.get t key (some d) = .ok v ∧ Kaptan.get t key none = .ok v)
    ∧ (∀ e, Kaptan._get t key = .error e →
        isSuppressed e = true
        ∧ Kaptan.get t key (some d) = .ok d
        ∧ Kaptan.get t key none = .error e) := by
  constructor
  · intro v hv
    unfold Kaptan.get
    simp [hk, hv]
  · intro e he
    have hs : isSuppressed e = true :=
      getChunks_error_suppressed (pySplitDot key) t e he
    unfold Kaptan.get
    simp [hk, he, hs]

theorem kaptan_get_default_suppression_witness :
    Kaptan.get (.map [("a", .int 1)]) "b" (some (.int 9)) = .ok (.int 9)
    ∧ Kaptan.get (.map [("a", .int 1)]) "b" none = .error .keyError
    ∧ isSuppressed .keyError = true := by
  have h := kaptan_get_default_suppression (.map [("a", .int 1)]) "b" (.int 9)
    (by decide)
  have h2 := h.2 .keyError rfl
  exact ⟨h2.2.1, h2.2.2, h2.1⟩

/-- C8: `import_config` with a native mapping selects the dict Handler
and installs the mapping itself as the configuration tree with no
parsing; and `import_config` on a string that is not an existing file
and not a python file (no `.py` extension, no same-named `.py` file),
with no Handler previously set, fails with `RuntimeError`
(`UnresolvedHandler`). -/
theorem kaptan_import_dispatch :
    (∀ (fs : FileSys) (h : Option HandlerKind) (m : List (String × ConfigTree)),
        Kaptan.import_config fs h (.dictV m) = .ok (.dict, .tree (.map m)))
    ∧ (∀ (fs : FileSys) (s : String),
        fs.isfile s = false → Kaptan._is_python_file fs s = false →
        Kaptan.import_config fs none (.strV s) = .error .runtimeError) := by
  constructor
  · intro fs h m
    rfl
  · intro fs s h1 h2
    unfold Kaptan.import_config
    simp [h1, h2]

theorem kaptan_import_dispatch_witness :
    Kaptan.import_config fsEmpty none (.dictV [("a", .int 1)])
        = .ok (.dict, .tree (.map [("a", .int 1)]))
    ∧ Kaptan.import_config fsEmpty none (.strV "settings") = .error .runtimeError :=
  ⟨kaptan_import_dispatch.1 fsEmpty none [("a", .int 1)],
   kaptan_import_dispatch.2 fsEmpty "settings" rfl rfl⟩

/-- C2 counterexample: on `{"a": 1}` the target key `"a"` exists with a
non-Sequence value, yet `add("a", 2, replace=false)` does NOT fail with
DuplicateKey — `is_key_exist` is only ever set inside the
multi-segment loop, so the call silently returns with the tree
unchanged. -/
theorem kaptan_add_duplicate_cex :
    Kaptan.add (.map [("a", .int 1)]) "a" (.int 2) false
        = .ok (.map [("a", .int 1)])
    ∧ Kaptan.add (.map [("a", .int 1)]) "a" (.int 2) false
        ≠ .error .runtimeError :=
  ⟨rfl, fun h => nomatch h⟩

/-- C2 (amended): `add(path, value, replace=false)` fails with
DuplicateKey (`RuntimeError`) iff the path has at least two segments
and the walk resolves every chunk through existing dicts down to the
final container, where the target key exists with a non-list value
(`addDup`).  Single-segment paths never raise DuplicateKey: at a dict
root the value is appended when the existing value is a list, inserted
when the key is missing, and the tree is silently left unchanged when
the key exists with a non-list value (the last three conjuncts; the
append/insert parts hold at any traversed final container with any
accumulated flag, via `addFinal`). -/
theorem kaptan_add_duplicate_amended :
    (∀ (t : ConfigTree) (segs : List String) (v : ConfigTree),
        addSegs t segs v false = .error .runtimeError
          ↔ (segs.length > 1
              ∧ addDup (segs.getLastD "") t segs.dropLast = true))
    ∧ (∀ (m : List (String × ConfigTree)) (k : String) (v w : ConfigTree),
        assocLookup m k = some w → w.isSeqB = false →
        addSegs (.map m) [k] v false = .ok (.map m))
    ∧ (∀ (m : List (String × ConfigTree)) (k : String) (v : ConfigTree)
        (xs : List ConfigTree) (flag : Bool),
        assocLookup m k = some (.seq xs) →
        addFinal (.map m) k v false flag
          = .ok (.map (assocSet m k (.seq (xs ++ [v])))))
    ∧ (∀ (m : List (String × ConfigTree)) (k : String) (v : ConfigTree)
        (flag : Bool),
        assocLookup m k = none →
        addFinal (.map m) k v false flag = .ok (.map (assocSet m k v))) := by
  refine ⟨?_, ?_, ?_, ?_⟩
  · intro t segs v
    by_cases hlen : segs.length > 1
    · unfold addSegs
      rw [if_pos hlen]
      obtain ⟨c, cs, hd⟩ : ∃ c cs, segs.dropLast = c :: cs := by
        cases hD : segs.dropLast with
        | nil =>
            exfalso
            have := congrArg List.length hD
            simp [List.length_dropLast] at this
            omega
        | cons c cs => exact ⟨c, cs, rfl⟩
      rw [hd, addLoop_runtime_iff]
      simp [hlen, hd]
    · unfold addSegs
      rw [if_neg hlen, addFinal_runtime_iff]
      simp [hlen]
  · intro m k v w hl hw
    unfold addSegs
    simp only [List.length_singleton]
    rw [if_neg (by omega)]
    rw [show ([k] : List String).headD "" = k from rfl]
    rw [addFinal_map_other m k v false w hl hw]
    rfl
  · intro m k v xs flag hl
    exact addFinal_map_seq m k v flag xs hl
  · intro m k v flag hl
    exact addFinal_map_none m k v flag hl

theorem kaptan_add_duplicate_amended_witness :
    addSegs (.map [("a", .map [("b", .int 1)])]) ["a", "b"] (.int 2) false
        = .error .runtimeError
    ∧ addSegs (.map [("a", .int 1)]) ["a"] (.int 2) false
        = .ok (.map [("a", .int 1)])
    ∧ addFinal (.map [("a", .seq [.int 1])]) "a" (.int 2) false true
        = .ok (.map (assocSet [("a", .seq [.int 1])] "a" (.seq ([.int 1] ++ [.int 2]))))
    ∧ addFinal (.map []) "a" (.int 2) false false
        = .ok (.map (assocSet [] "a" (.int 2))) :=
  ⟨(kaptan_add_duplicate_amended.1 _ ["a", "b"] _).mpr ⟨by decide, rfl⟩,
   kaptan_add_duplicate_amended.2.1 _ "a" (.int 2) (.int 1) rfl rfl,
   kaptan_add_duplicate_amended.2.2.1 _ "a" (.int 2) [.int 1] true rfl,
   kaptan_add_duplicate_amended.2.2.2 [] "a" (.int 2) false rfl⟩

/-- C4 counterexample: on `{"x": 5}` with path `"x.y"` the
container-path walk evaluates `new_key in current_data["x"]`, i.e.
`"y" in 5`, and raises `TypeError` — `add`'s traversal CAN fail when
an existing intermediate value is not a Mapping. -/
theorem kaptan_add_viv_cex :
    Kaptan.add (.map [("x", .int 5)]) "x.y" (.int 1) false
      = .error .typeError := rfl

/-- C4 (amended): when every existing node along the container path —
final container included — is a Mapping, `add`'s traversal never
fails: missing intermediate keys are auto-vivified as fresh empty
dicts, and no `TypeError` can arise (the only possible failure is the
final-step DuplicateKey); in particular `add("x.y.z", 5)` on the empty
tree produces exactly `{"x": {"y": {"z": 5}}}`. -/
theorem kaptan_add_viv_amended :
    (∀ (t : ConfigTree) (segs : List String) (v : ConfigTree),
        segs.length > 1 → addPathOk t segs.dropLast = true →
        addSegs t segs v false ≠ .error .typeError)
    ∧ Kaptan.add (.map []) "x.y.z" (.int 5) false
        = .ok (.map [("x", .map [("y", .map [("z", .int 5)])])]) := by
  constructor
  · intro t segs v hlen hok
    unfold addSegs
    rw [if_pos hlen]
    exact addLoop_pathOk segs.dropLast t (segs.getLastD "") v false hok
  · rfl

theorem kaptan_add_viv_amended_witness :
    addSegs (.map []) ["x", "y"] (.int 5) false ≠ .error .typeError :=
  kaptan_add_viv_amended.1 (.map []) ["x", "y"] (.int 5) (by decide) rfl

/-- C7 counterexample: on `{"a": 1}` the call `add("a", 2,
replace=false)` succeeds (silently leaving the tree unchanged)
although the prior value `1` is not a Sequence, and the subsequent
`get("a")` returns `1`, not the added value `2`. -/
theorem kaptan_add_get_cex :
    Kaptan.add (.map [("a", .int 1)]) "a" (.int 2) false
        = .ok (.map [("a", .int 1)])
    ∧ Kaptan.get (.map [("a", .int 1)]) "a" none = .ok (.int 1)
    ∧ Kaptan.get (.map [("a", .int 1)]) "a" none ≠ .ok (.int 2) :=
  ⟨rfl, rfl, fun h => nomatch h⟩

/-- C7 (amended): if `add(p, v)` with replace=false succeeds, producing
tree `t2`, then `get(p)` on `t2` returns `v`, except (i) when the value
at `p` before the add was a Sequence `xs` — then `get(p)` returns
`xs ++ [v]`, a sequence whose last element is `v` — and (ii) when `p`
is a single segment whose key already existed with a non-Sequence
value `w` — then the add was a silent no-op and `get(p)` still returns
`w`. -/
theorem kaptan_add_get_amended (t : ConfigTree) (segs : List String)
    (v t2 : ConfigTree) (hne : segs ≠ [])
    (h : addSegs t segs v false = .ok t2) :
    (∃ xs, getChunks t segs = .ok (.seq xs)
        ∧ getChunks t2 segs = .ok (.seq (xs ++ [v])))
    ∨ (∃ m w, segs.length = 1 ∧ t = .map m
        ∧ assocLookup m (segs.headD "") = some w ∧ w.isSeqB = false
        ∧ t2 = t ∧ getChunks t2 segs = .ok w)
    ∨ getChunks t2 segs = .ok v := by
  unfold addSegs at h
  by_cases hlen : segs.length > 1
  · rw [if_pos hlen] at h
    have hsplit : segs.dropLast ++ [segs.getLastD ""] = segs :=
      dropLast_append_getLastD segs "" hne
    have htri := addLoop_ok_get segs.dropLast t (segs.getLastD "") v false t2 h
    rw [hsplit] at htri
    rcases htri with h1 | ⟨hdrop, _, _⟩ | h3
    · exact Or.inl h1
    · exfalso
      have := congrArg List.length hdrop
      simp [List.length_dropLast] at this
      omega
    · exact Or.inr (Or.inr h3)
  · rw [if_neg hlen] at h
    obtain ⟨k, hk⟩ : ∃ k, segs = [k] := by
      cases segs with
      | nil => exact absurd rfl hne
      | cons a rest =>
          cases rest with
          | nil => exact ⟨a, rfl⟩
          | cons b bs =>
              exfalso
              apply hlen
              simp [List.length_cons]
    subst hk
    have htri := addLoop_ok_get [] t k v false t2 (by rw [addLoop_nil]; exact h)
    rcases htri with h1 | ⟨_, _, m, w, hm, hlw, hwseq, ht2⟩ | h3
    · exact Or.inl h1
    · right; left
      subst hm
      subst ht2
      refine ⟨m, w, rfl, rfl, hlw, hwseq, rfl, ?_⟩
      simp [getChunks, hlw]
    · exact Or.inr (Or.inr h3)

theorem kaptan_add_get_amended_witness :
    (∃ xs, getChunks (.map [("a", .seq [.int 1])]) ["a"] = .ok (.seq xs)
        ∧ getChunks (.map [("a", .seq [.int 1, .int 2])]) ["a"]
            = .ok (.seq (xs ++ [.int 2])))
    ∨ (∃ m w, (["a"] : List String).length = 1
        ∧ (ConfigTree.map [("a", .seq [.int 1])]) = .map m
        ∧ assocLookup m ((["a"] : List String).headD "") = some w
        ∧ w.isSeqB = false
        ∧ (ConfigTree.map [("a", .seq [.int 1, .int 2])])
            = .map [("a", .seq [.int 1])]
        ∧ getChunks (.map [("a", .seq [.int 1, .int 2])]) ["a"] = .ok w)
    ∨ getChunks (.map [("a", .seq [.int 1, .int 2])]) ["a"] = .ok (.int 2) :=
  kaptan_add_get_amended (.map [("a", .seq [.int 1])]) ["a"] (.int 2)
    (.map [("a", .seq [.int 1, .int 2])]) (by simp) rfl
